import Mathlib

/-!
Shallow embedding of the `cpuid` Go package (vendor/model/cache/TLB/feature
decoding and snapshot capture/replay).  Machine integers are modelled as `Nat`
with explicit `% 2^32` where 32-bit overflow can occur; Go strings that are
treated as byte sequences are modelled as `List Nat` (byte values); a CPUID
register source (live hardware or snapshot replay) is modelled as an abstract
function from (leaf, subleaf) to the four result registers.
-/

namespace Cpuid

/-- The four 32-bit result registers of one CPUID query (EAX/EBX/ECX/EDX). -/
structure RegTuple where
  eax : Nat
  ebx : Nat
  ecx : Nat
  edx : Nat
deriving DecidableEq, Repr

/-- A register source: `q leaf subleaf` returns the four result registers.
This models `CPUIDWithMode` / `cpuid`, abstracting over live vs. replay mode. -/
abbrev Query := Nat → Nat → RegTuple

/-- Result of `GetModelData` (the `ProcessorModel` Go struct). -/
structure ProcessorModel where
  steppingID : Nat
  modelID : Nat
  familyID : Nat
  processorType : Nat
  extendedModelID : Nat
  extendedFamilyID : Nat
  effectiveModel : Nat
  effectiveFamily : Nat
deriving DecidableEq, Repr

/-- Embedding of `GetModelData`: decodes leaf-1 EAX into the processor model,
including the effective model/family adjustment rule. -/
def GetModelData (q : Query) : ProcessorModel :=
  let a := (q 1 0).eax
  let steppingID := a &&& 0xF
  let modelID := (a >>> 4) &&& 0xF
  let familyID := (a >>> 8) &&& 0xF
  let processorType := (a >>> 12) &&& 0x3
  let extendedModelID := (a >>> 16) &&& 0xF
  let extendedFamilyID := (a >>> 20) &&& 0xFF
  let effectiveModel :=
    if familyID = 0xF ∨ familyID = 0x6 then modelID + (extendedModelID <<< 4)
    else modelID
  let effectiveFamily :=
    if familyID = 0xF then familyID + extendedFamilyID
    else familyID
  { steppingID := steppingID
    modelID := modelID
    familyID := familyID
    processorType := processorType
    extendedModelID := extendedModelID
    extendedFamilyID := extendedFamilyID
    effectiveModel := effectiveModel
    effectiveFamily := effectiveFamily }

theorem mask_extract (a k j : Nat) : (a >>> k) &&& (2 ^ j - 1) = a / 2 ^ k % 2 ^ j := by
  rw [Nat.shiftRight_eq_div_pow, Nat.and_pow_two_sub_one_eq_mod]

/-- C1: the decoded fields of `GetModelData` are the claimed bit ranges of
leaf-1 EAX (stepping = bits 0-3, model = bits 4-7, family = bits 8-11,
extended model = bits 16-19, extended family = bits 20-27); the effective
model is `model + (extendedModel <<< 4)` exactly when the raw family field is
0xF or 0x6 and the raw model otherwise; the effective family is
`family + extendedFamily` exactly when the raw family field is 0xF and the
raw family otherwise. -/
theorem getModelData_effective_rule (q : Query) :
    let a := (q 1 0).eax
    let m := GetModelData q
    m.steppingID = a % 2 ^ 4 ∧
    m.modelID = a / 2 ^ 4 % 2 ^ 4 ∧
    m.familyID = a / 2 ^ 8 % 2 ^ 4 ∧
    m.extendedModelID = a / 2 ^ 16 % 2 ^ 4 ∧
    m.extendedFamilyID = a / 2 ^ 20 % 2 ^ 8 ∧
    m.effectiveModel =
      (if m.familyID = 0xF ∨ m.familyID = 0x6 then m.modelID + m.extendedModelID * 2 ^ 4
       else m.modelID) ∧
    m.effectiveFamily =
      (if m.familyID = 0xF then m.familyID + m.extendedFamilyID else m.familyID) := by
  intro a m
  have h4 : (0xF : Nat) = 2 ^ 4 - 1 := rfl
  have h8 : (0xFF : Nat) = 2 ^ 8 - 1 := rfl
  have hstep : m.steppingID = a % 2 ^ 4 := by
    show a &&& 0xF = a % 2 ^ 4
    rw [h4, Nat.and_pow_two_sub_one_eq_mod]
  have hmodel : m.modelID = a / 2 ^ 4 % 2 ^ 4 := by
    show (a >>> 4) &&& 0xF = a / 2 ^ 4 % 2 ^ 4
    rw [h4, mask_extract]
  have hfam : m.familyID = a / 2 ^ 8 % 2 ^ 4 := by
    show (a >>> 8) &&& 0xF = a / 2 ^ 8 % 2 ^ 4
    rw [h4, mask_extract]
  have hxm : m.extendedModelID = a / 2 ^ 16 % 2 ^ 4 := by
    show (a >>> 16) &&& 0xF = a / 2 ^ 16 % 2 ^ 4
    rw [h4, mask_extract]
  have hxf : m.extendedFamilyID = a / 2 ^ 20 % 2 ^ 8 := by
    show (a >>> 20) &&& 0xFF = a / 2 ^ 20 % 2 ^ 8
    rw [h8, mask_extract]
  refine ⟨hstep, hmodel, hfam, hxm, hxf, ?_, ?_⟩
  · show (if (a >>> 8) &&& 0xF = 0xF ∨ (a >>> 8) &&& 0xF = 0x6 then
        ((a >>> 4) &&& 0xF) + (((a >>> 16) &&& 0xF) <<< 4)
      else (a >>> 4) &&& 0xF) = _
    rw [Nat.shiftLeft_eq]
    rfl
  · rfl

/-- Embedding of `int32ToBytes`: the four bytes of a 32-bit value, little-endian
(`byte(i)` truncation is `% 256`). -/
def int32ToBytes (i : Nat) : List Nat :=
  [i % 256, (i >>> 8) % 256, (i >>> 16) % 256, (i >>> 24) % 256]

/-- Embedding of `GetVendorID`: the 12 vendor bytes are the bytes of EBX, EDX,
ECX of leaf 0 (in that order), least significant byte first within each. -/
def GetVendorID (q : Query) : List Nat :=
  let r := q 0 0
  int32ToBytes r.ebx ++ int32ToBytes r.edx ++ int32ToBytes r.ecx

/-- ASCII fragment of `strings.ToUpper`, applied bytewise. -/
def toUpperByte (b : Nat) : Nat :=
  if 97 ≤ b ∧ b ≤ 122 then b - 32 else b

/-- `leadsWith needle hay`: `hay` starts with `needle`. -/
def leadsWith {α : Type} [DecidableEq α] : List α → List α → Bool
  | [], _ => true
  | _ :: _, [] => false
  | n :: ns, h :: hs => n = h && leadsWith ns hs

/-- Model of `strings.Contains hay needle`. -/
def hasSubSeq {α : Type} [DecidableEq α] (hay needle : List α) : Bool :=
  match hay with
  | [] => needle.isEmpty
  | _ :: t => leadsWith needle hay || hasSubSeq t needle

/-- `strings.Contains` on Lean strings (used for the cache-type page sizes). -/
def strContains (s sub : String) : Bool := hasSubSeq s.data sub.data

/-- The byte string "AMD". -/
def amdBytes : List Nat := [65, 77, 68]

/-- The byte string "INTEL". -/
def intelBytes : List Nat := [73, 78, 84, 69, 76]

/-- `strings.Contains(strings.ToUpper(v), "AMD")` on a vendor byte string. -/
def vendorHasAMD (v : List Nat) : Bool := hasSubSeq (v.map toUpperByte) amdBytes

/-- `strings.Contains(strings.ToUpper(v), "INTEL")` on a vendor byte string. -/
def vendorHasINTEL (v : List Nat) : Bool := hasSubSeq (v.map toUpperByte) intelBytes

/-- Embedding of `isAMD`. -/
def isAMD (q : Query) : Bool := vendorHasAMD (GetVendorID q)

/-- Embedding of `isIntel`. -/
def isIntel (q : Query) : Bool := vendorHasINTEL (GetVendorID q)

/-- The six ASCII bytes trimmed by `strings.TrimSpace` (its ASCII fragment):
tab, newline, vertical tab, form feed, carriage return, space. -/
def isSpaceByte (b : Nat) : Bool :=
  b = 9 || b = 10 || b = 11 || b = 12 || b = 13 || b = 32

/-- ASCII model of `strings.TrimSpace`: drop leading and trailing space bytes. -/
def trimSpaceBytes (s : List Nat) : List Nat :=
  ((s.dropWhile isSpaceByte).reverse.dropWhile isSpaceByte).reverse

/-- Embedding of `GetBrandString`: for `maxExtFunc ≥ 0x80000004`, the 48 brand
bytes are the registers of leaves 0x80000002..0x80000004 (subleaf 0) copied in
order, 16 bytes per leaf; the result is the trimmed byte string.  Otherwise the
empty string. -/
def GetBrandString (maxExtFunc : Nat) (q : Query) : List Nat :=
  if 0x80000004 ≤ maxExtFunc then
    let chunk := fun (i : Nat) =>
      let r := q (0x80000002 + i) 0
      int32ToBytes r.eax ++ int32ToBytes r.ebx ++ int32ToBytes r.ecx ++ int32ToBytes r.edx
    trimSpaceBytes (chunk 0 ++ chunk 1 ++ chunk 2)
  else []

/-- Little-endian bytes of a 32-bit register, written as the claim states them
(byte k is `r / 2^(8k) % 2^8`). -/
def leBytes (r : Nat) : List Nat :=
  [r % 2 ^ 8, r / 2 ^ 8 % 2 ^ 8, r / 2 ^ 16 % 2 ^ 8, r / 2 ^ 24 % 2 ^ 8]

theorem int32ToBytes_eq_leBytes (r : Nat) : int32ToBytes r = leBytes r := by
  simp [int32ToBytes, leBytes, Nat.shiftRight_eq_div_pow]

/-- The 12 registers returned by the three brand-string queries, in query order. -/
def brandRegs (q : Query) : List Nat :=
  (List.range 3).flatMap fun i =>
    let r := q (0x80000002 + i) 0
    [r.eax, r.ebx, r.ecx, r.edx]

/-- C5: when `maxExtFunc ≥ 0x80000004`, `GetBrandString` returns the
concatenation of the 12 registers of leaves 0x80000002..0x80000004 (subleaf 0)
as little-endian raw bytes, with surrounding whitespace trimmed, and its result
depends only on the registers of those three leaves (exactly three queries);
when `maxExtFunc < 0x80000004` it returns the empty string for every register
source (no query influences it). -/
theorem getBrandString_spec (maxExtFunc : Nat) (q q' : Query)
    (hagree : ∀ i, i < 3 → q (0x80000002 + i) 0 = q' (0x80000002 + i) 0) :
    (0x80000004 ≤ maxExtFunc →
      GetBrandString maxExtFunc q =
        trimSpaceBytes ((brandRegs q).flatMap leBytes) ∧
      GetBrandString maxExtFunc q = GetBrandString maxExtFunc q') ∧
    (maxExtFunc < 0x80000004 → GetBrandString maxExtFunc q = []) := by
  constructor
  · intro hle
    have h0 := hagree 0 (by decide)
    have h1 := hagree 1 (by decide)
    have h2 := hagree 2 (by decide)
    constructor
    · simp only [GetBrandString, if_pos hle, brandRegs, List.range_succ, List.range_zero,
        List.nil_append, List.flatMap_cons, List.flatMap_nil, List.flatMap_append,
        List.append_nil, int32ToBytes_eq_leBytes, List.append_assoc]
    · simp only [GetBrandString, if_pos hle, h0, h1, h2]
  · intro hlt
    have : ¬ (0x80000004 ≤ maxExtFunc) := by omega
    simp [GetBrandString, this]

/-- The all-zero register source. -/
def zeroQuery : Query := fun _ _ => ⟨0, 0, 0, 0⟩

/-- A register source that differs from `zeroQuery` only at leaf 0. -/
def altQuery : Query := fun l _ => if l = 0 then ⟨1, 2, 3, 4⟩ else ⟨0, 0, 0, 0⟩

theorem getBrandString_spec_witness :
    (0x80000004 ≤ 0x80000004 →
      GetBrandString 0x80000004 zeroQuery =
        trimSpaceBytes ((brandRegs zeroQuery).flatMap leBytes) ∧
      GetBrandString 0x80000004 zeroQuery = GetBrandString 0x80000004 altQuery) ∧
    (0x80000004 < 0x80000004 → GetBrandString 0x80000004 zeroQuery = []) :=
  getBrandString_spec 0x80000004 zeroQuery altQuery (by
    intro i _
    show (⟨0, 0, 0, 0⟩ : RegTuple) = if 0x80000002 + i = 0 then ⟨1, 2, 3, 4⟩ else ⟨0, 0, 0, 0⟩
    rw [if_neg (by omega)])

/-- The `CPUCacheInfo` Go struct. -/
structure CPUCacheInfo where
  Level : Nat
  «Type» : String
  SizeKB : Nat
  Ways : Nat
  LineSizeBytes : Nat
  TotalSets : Nat
  MaxCoresSharing : Nat
  SelfInitializing : Bool
  FullyAssociative : Bool
  MaxProcessorIDs : Nat
  WritePolicy : String
deriving DecidableEq, Repr

/-- Embedding of `getCacheTypeString`. -/
def getCacheTypeString (cacheType : Nat) : String :=
  match cacheType with
  | 1 => "Data"
  | 2 => "Instruction"
  | 3 => "Unified"
  | _ => "Unknown"

/-- Embedding of `GetCPUCacheDetails`.  All register arithmetic is unsigned
32-bit, so the `+ 1` on ECX and the size products carry an explicit `% 2^32`. -/
def GetCPUCacheDetails (q : Query) (leaf subLeaf : Nat) : CPUCacheInfo :=
  let r := q leaf subLeaf
  let a := r.eax
  let b := r.ebx
  let c := r.ecx
  let cacheType := a &&& 0x1F
  let level := (a >>> 5) &&& 0x7
  let lineSize := (b &&& 0xFFF) + 1
  let partitions := ((b >>> 12) &&& 0x3FF) + 1
  let associativity := ((b >>> 22) &&& 0x3FF) + 1
  let sets := (c + 1) % 2 ^ 32
  let size := lineSize * partitions % 2 ^ 32 * associativity % 2 ^ 32 * sets % 2 ^ 32
  let selfInit := (a >>> 8) &&& 1 ≠ 0
  let fullyAssoc := (a >>> 9) &&& 1 ≠ 0
  let maxProcIDs := ((a >>> 26) &&& 0x3F) + 1
  let typeString := getCacheTypeString cacheType
  let maxCoresSharing := ((a >>> 14) &&& 0xFFF) + 1
  let writePolicy :=
    match (a >>> 10) &&& 0x3 with
    | 0 => "Write Back"
    | 1 => "Write Through"
    | 2 => "Write Protected"
    | _ => "Unknown"
  { Level := level
    «Type» := typeString
    SizeKB := size / 1024
    Ways := associativity
    LineSizeBytes := lineSize
    TotalSets := sets
    MaxCoresSharing := maxCoresSharing
    SelfInitializing := selfInit
    FullyAssociative := fullyAssoc
    MaxProcessorIDs := maxProcIDs
    WritePolicy := writePolicy }

/-- The shared subleaf loop of `GetIntelCache` and `GetAMDCache`: starting at
subleaf `i`, collect cache details until a subleaf whose type string is
`getCacheTypeString 0` (i.e. "Unknown").  `fuel` bounds the iteration, which
the Go loop leaves unbounded. -/
def cacheSweep (q : Query) (leaf : Nat) : Nat → Nat → List CPUCacheInfo
  | 0, _ => []
  | fuel + 1, i =>
    let info := GetCPUCacheDetails q leaf i
    if info.«Type» = getCacheTypeString 0 then []
    else info :: cacheSweep q leaf fuel (i + 1)

/-- Embedding of `GetIntelCache`. -/
def GetIntelCache (fuel maxFunc : Nat) (q : Query) : List CPUCacheInfo :=
  if maxFunc < 4 then [] else cacheSweep q 4 fuel 0

/-- Embedding of `GetAMDCache`. -/
def GetAMDCache (fuel maxExtFunc : Nat) (q : Query) : List CPUCacheInfo :=
  if maxExtFunc < 0x8000001D then [] else cacheSweep q 0x8000001D fuel 0

/-- Embedding of `GetCacheInfo` (part_006 variant): the Go function returns a
slice together with an `error`; the pair's second component models the error
(`none` = nil). -/
def GetCacheInfo (fuel maxFunc maxExtFunc : Nat) (vendorID : List Nat) (q : Query) :
    List CPUCacheInfo × Option String :=
  let isIntelV := vendorHasINTEL vendorID
  let isAMDV := vendorHasAMD vendorID
  if isAMDV then (GetAMDCache fuel maxExtFunc q, none)
  else if isIntelV then (GetIntelCache fuel maxFunc q, none)
  else ([], some "Unknown/Unsupported CPU vendor")

/-- The cache size in KB as the claim states it: lineSize = (B bits 0-11)+1,
partitions = (B bits 12-21)+1, associativity = (B bits 22-31)+1, sets = C+1,
size in bytes = their product (in unsigned 32-bit arithmetic), reported in KB
via integer division by 1024. -/
def specCacheSizeKB (b c : Nat) : Nat :=
  (b % 2 ^ 12 + 1) * (b / 2 ^ 12 % 2 ^ 10 + 1) * (b / 2 ^ 22 % 2 ^ 10 + 1) * (c + 1)
    % 2 ^ 32 / 1024

theorem u32_mul_chain (l p a s M : Nat) :
    l * p % M * a % M * (s % M) % M = l * p * a * s % M := by
  rw [@Nat.mod_mul_mod (l * p) a M, ← Nat.mul_mod]

/-- A register source whose leaf-4 subleaf-0 cache geometry is lineSize 64,
partitions 1, associativity 8, sets 64 (EBX = 63 + 7·2^22, ECX = 63). -/
def cacheGeomQuery : Query := fun _ _ => ⟨0x21, 63 + 7 * 2 ^ 22, 63, 0⟩

/-- C4: for every register source and (leaf, subleaf), the reported `SizeKB`
is lineSize × partitions × associativity × sets (fields decoded from the
claimed bit ranges of B and C) divided by 1024, in unsigned 32-bit
arithmetic; in particular lineSize 64, partitions 1, associativity 8,
sets 64 reports exactly 32 KB. -/
theorem getCPUCacheDetails_sizeKB (q : Query) (leaf subLeaf : Nat) :
    (GetCPUCacheDetails q leaf subLeaf).SizeKB =
      specCacheSizeKB (q leaf subLeaf).ebx (q leaf subLeaf).ecx ∧
    (GetCPUCacheDetails cacheGeomQuery 4 0).SizeKB = 32 ∧
    (GetCPUCacheDetails cacheGeomQuery 4 0).LineSizeBytes = 64 ∧
    (GetCPUCacheDetails cacheGeomQuery 4 0).Ways = 8 ∧
    (GetCPUCacheDetails cacheGeomQuery 4 0).TotalSets = 64 := by
  refine ⟨?_, by decide, by decide, by decide, by decide⟩
  have h12 : ((q leaf subLeaf).ebx &&& 0xFFF) = (q leaf subLeaf).ebx % 2 ^ 12 := by
    have : (0xFFF : Nat) = 2 ^ 12 - 1 := rfl
    rw [this, Nat.and_pow_two_sub_one_eq_mod]
  have h10a : ((q leaf subLeaf).ebx >>> 12) &&& 0x3FF = (q leaf subLeaf).ebx / 2 ^ 12 % 2 ^ 10 := by
    have : (0x3FF : Nat) = 2 ^ 10 - 1 := rfl
    rw [this, mask_extract]
  have h10b : ((q leaf subLeaf).ebx >>> 22) &&& 0x3FF = (q leaf subLeaf).ebx / 2 ^ 22 % 2 ^ 10 := by
    have : (0x3FF : Nat) = 2 ^ 10 - 1 := rfl
    rw [this, mask_extract]
  show (((q leaf subLeaf).ebx &&& 0xFFF) + 1) * ((((q leaf subLeaf).ebx >>> 12) &&& 0x3FF) + 1)
      % 2 ^ 32 * ((((q leaf subLeaf).ebx >>> 22) &&& 0x3FF) + 1) % 2 ^ 32
      * (((q leaf subLeaf).ecx + 1) % 2 ^ 32) % 2 ^ 32 / 1024 = _
  rw [h12, h10a, h10b, u32_mul_chain, specCacheSizeKB]

/-- A register source whose leaf-4 subleaf-0 tuple has ECX = 0xFFFFFFFF (so
`sets = ECX + 1` wraps to 0 in unsigned 32-bit arithmetic) and EBX = 0. -/
def overflowQuery : Query := fun _ _ => ⟨0x21, 0, 0xFFFFFFFF, 0⟩

/-- C9: `GetCPUCacheDetails` computes the size in unsigned 32-bit arithmetic:
`TotalSets` is `(ECX + 1) % 2^32` for every register source, and at
ECX = 0xFFFFFFFF the reported `SizeKB` is 0 although the decoded lineSize,
partitions and associativity are all nonzero (`TotalSets` wraps to 0). -/
theorem getCPUCacheDetails_u32_wrap :
    (∀ q : Query, ∀ leaf subLeaf : Nat,
      (GetCPUCacheDetails q leaf subLeaf).TotalSets = ((q leaf subLeaf).ecx + 1) % 2 ^ 32) ∧
    (GetCPUCacheDetails overflowQuery 4 0).SizeKB = 0 ∧
    (GetCPUCacheDetails overflowQuery 4 0).LineSizeBytes = 1 ∧
    (((overflowQuery 4 0).ebx >>> 12) &&& 0x3FF) + 1 = 1 ∧
    (GetCPUCacheDetails overflowQuery 4 0).Ways = 1 ∧
    (GetCPUCacheDetails overflowQuery 4 0).TotalSets = 0 :=
  ⟨fun _ _ _ => rfl, by decide, by decide, by decide, by decide, by decide⟩

/-- C10: with `maxFunc < 4` and `maxExtFunc < 0x8000001D` the vendor cache
getters return the empty list for every register source and fuel (the subleaf
loop is never entered), and `GetCacheInfo` for a recognized vendor returns the
empty list with a nil error. -/
theorem cacheGetters_below_threshold (fuel maxFunc maxExtFunc : Nat) (q : Query)
    (v : List Nat) (hm : maxFunc < 4) (he : maxExtFunc < 0x8000001D)
    (hv : vendorHasAMD v = true ∨ vendorHasINTEL v = true) :
    GetIntelCache fuel maxFunc q = [] ∧
    GetAMDCache fuel maxExtFunc q = [] ∧
    GetCacheInfo fuel maxFunc maxExtFunc v q = ([], none) := by
  have hi : GetIntelCache fuel maxFunc q = [] := by simp [GetIntelCache, hm]
  have ha : GetAMDCache fuel maxExtFunc q = [] := by simp [GetAMDCache, he]
  refine ⟨hi, ha, ?_⟩
  by_cases hA : vendorHasAMD v = true
  · simp [GetCacheInfo, hA, ha]
  · have hI : vendorHasINTEL v = true := hv.resolve_left hA
    simp [GetCacheInfo, hA, hI, hi]

theorem cacheGetters_below_threshold_witness :
    GetIntelCache 1 0 zeroQuery = [] ∧
    GetAMDCache 1 0 zeroQuery = [] ∧
    GetCacheInfo 1 0 0 amdBytes zeroQuery = ([], none) :=
  cacheGetters_below_threshold 1 0 0 zeroQuery amdBytes (by decide) (by decide)
    (Or.inl (by decide))

/-- The `Entry` Go struct of the snapshot file (one cpuid call result). -/
structure Entry where
  Leaf : Nat
  Subleaf : Nat
  EAX : Nat
  EBX : Nat
  ECX : Nat
  EDX : Nat
deriving DecidableEq, Repr

/-- The entry recorded for one query. -/
def mkEntry (leaf subleaf : Nat) (r : RegTuple) : Entry :=
  ⟨leaf, subleaf, r.eax, r.ebx, r.ecx, r.edx⟩

/-- The break conditions of `CaptureData`'s standard-leaf subleaf loop (leaves
4, 0xB and 0xD), checked before appending the entry. -/
def stdBrk (leaf subleaf : Nat) (r : RegTuple) : Bool :=
  decide (leaf = 4 ∧ 0 < subleaf ∧ r.eax &&& 0x1F = 0) ||
  decide (leaf = 0xB ∧ 0 < subleaf ∧ r.eax = 0) ||
  decide (leaf = 0xD ∧ 0 < subleaf ∧ r.eax = 0 ∧ r.ebx = 0 ∧ r.ecx = 0 ∧ r.edx = 0)

/-- The break condition of `CaptureData`'s extended-leaf subleaf loop
(leaf 0x8000001D). -/
def extBrk (subleaf : Nat) (r : RegTuple) : Bool :=
  decide (0 < subleaf ∧ r.eax &&& 0x1F = 0)

/-- `CaptureData`'s subleaf loop: starting at the given subleaf, record
entries until the break condition holds (checked before appending).  `fuel`
bounds the iteration, which the Go loop leaves unbounded. -/
def captureSweep (q : Query) (leaf : Nat) (brk : Nat → RegTuple → Bool) :
    Nat → Nat → List Entry
  | 0, _ => []
  | fuel + 1, s =>
    let r := q leaf s
    if brk s r then []
    else mkEntry leaf s r :: captureSweep q leaf brk fuel (s + 1)

theorem captureSweep_stops (q : Query) (leaf : Nat) (brk : Nat → RegTuple → Bool) :
    ∀ n fuel start, n < fuel →
      brk (start + n) (q leaf (start + n)) = true →
      (∀ j, j < n → brk (start + j) (q leaf (start + j)) = false) →
      captureSweep q leaf brk fuel start =
        (List.range n).map (fun s => mkEntry leaf (start + s) (q leaf (start + s))) := by
  intro n
  induction n with
  | zero =>
    intro fuel start hfuel hstop _
    match fuel, hfuel with
    | f + 1, _ =>
      simp only [captureSweep, Nat.add_zero] at hstop ⊢
      rw [hstop]
      simp
  | succ n ih =>
    intro fuel start hfuel hstop hcont
    match fuel, hfuel with
    | f + 1, hfuel =>
      have h0 : brk start (q leaf start) = false := by
        have := hcont 0 (Nat.succ_pos n)
        simpa using this
      simp only [captureSweep]
      rw [h0]
      simp only [Bool.false_eq_true, if_false]
      have hshift : start + 1 + n = start + (n + 1) := by omega
      have ihres := ih f (start + 1) (by omega) (by rw [hshift]; exact hstop)
        (fun j hj => by
          have := hcont (j + 1) (by omega)
          have hj' : start + 1 + j = start + (j + 1) := by omega
          rw [hj']
          exact this)
      rw [ihres, List.range_succ_eq_map]
      simp only [List.map_cons, List.map_map, Nat.add_zero]
      congr 1
      apply List.map_congr_left
      intro s _
      simp only [Function.comp_apply, Nat.succ_eq_add_one]
      have : start + 1 + s = start + (s + 1) := by omega
      rw [this]

theorem cacheSweep_stops (q : Query) (leaf : Nat) :
    ∀ n fuel start, n < fuel →
      (GetCPUCacheDetails q leaf (start + n)).«Type» = getCacheTypeString 0 →
      (∀ j, j < n → (GetCPUCacheDetails q leaf (start + j)).«Type» ≠ getCacheTypeString 0) →
      cacheSweep q leaf fuel start =
        (List.range n).map (fun s => GetCPUCacheDetails q leaf (start + s)) := by
  intro n
  induction n with
  | zero =>
    intro fuel start hfuel hstop _
    match fuel, hfuel with
    | f + 1, _ =>
      rw [Nat.add_zero] at hstop
      simp only [cacheSweep]
      rw [if_pos hstop]
      simp
  | succ n ih =>
    intro fuel start hfuel hstop hcont
    match fuel, hfuel with
    | f + 1, hfuel =>
      have h0 : ¬ (GetCPUCacheDetails q leaf start).«Type» = getCacheTypeString 0 := by
        have := hcont 0 (Nat.succ_pos n)
        simpa using this
      simp only [cacheSweep]
      rw [if_neg h0]
      have hshift : start + 1 + n = start + (n + 1) := by omega
      have ihres := ih f (start + 1) (by omega) (by rw [hshift]; exact hstop)
        (fun j hj => by
          have := hcont (j + 1) (by omega)
          have hj' : start + 1 + j = start + (j + 1) := by omega
          rw [hj']
          exact this)
      rw [ihres, List.range_succ_eq_map]
      simp only [List.map_cons, List.map_map, Nat.add_zero]
      congr 1
      apply List.map_congr_left
      intro s _
      simp only [Function.comp_apply, Nat.succ_eq_add_one]
      have : start + 1 + s = start + (s + 1) := by omega
      rw [this]

theorem stdBrk_four (s : Nat) (r : RegTuple) :
    stdBrk 4 s r = decide (0 < s ∧ r.eax &&& 0x1F = 0) := by
  simp [stdBrk]

/-- A register source whose leaf-4 cache types are: subleaf 0 = 1 (Data),
subleaf 1 = 4 (a nonzero type outside {1,2,3}), subleaf 2 and beyond = 0. -/
def c2Query : Query := fun l s =>
  if l = 4 ∧ s = 0 then ⟨0x21, 0, 0, 0⟩
  else if l = 4 ∧ s = 1 then ⟨0x4, 0, 0, 0⟩
  else ⟨0, 0, 0, 0⟩

/-- C2 is false for `GetIntelCache`/`GetAMDCache`: on `c2Query` the Intel loop
stops at subleaf 1 although its cache-type field is 4 ≠ 0 (the claim says only
cache-type 0 terminates, so subleafs 0 and 1 would both be reported), and on
the all-zero source both getters return the empty list although the claim says
subleaf 0 is unconditionally included and never treated as the terminator. -/
theorem cacheLoop_counterexample :
    GetIntelCache 10 4 c2Query = [GetCPUCacheDetails c2Query 4 0] ∧
    (c2Query 4 1).eax &&& 0x1F ≠ 0 ∧
    (c2Query 4 2).eax &&& 0x1F = 0 ∧
    GetIntelCache 10 4 zeroQuery = [] ∧
    GetAMDCache 10 0x8000001D zeroQuery = [] := by
  refine ⟨?_, by decide, by decide, ?_, ?_⟩ <;> decide

/-- C2 (amended): `CaptureData`'s cache subleaf sweeps (leaf 4 and leaf
0x8000001D) stop exactly at the first subleaf ≥ 1 whose EAX low-5-bits
cache-type field is 0 and include subleaf 0 unconditionally; the getter loops
`GetIntelCache` and `GetAMDCache` instead stop at the first subleaf — subleaf 0
included — whose cache type decodes to the "Unknown" type string, i.e. any
value outside {1, 2, 3}, so subleaf 0 can terminate them and nonzero types
outside {1, 2, 3} terminate them too. -/
theorem cacheEnumeration_termination :
    (∀ q : Query, ∀ n fuel : Nat, 0 < n → n < fuel →
      (q 4 n).eax &&& 0x1F = 0 →
      (∀ j, 0 < j → j < n → (q 4 j).eax &&& 0x1F ≠ 0) →
      captureSweep q 4 (stdBrk 4) fuel 0 =
        (List.range n).map (fun s => mkEntry 4 s (q 4 s))) ∧
    (∀ q : Query, ∀ n fuel : Nat, 0 < n → n < fuel →
      (q 0x8000001D n).eax &&& 0x1F = 0 →
      (∀ j, 0 < j → j < n → (q 0x8000001D j).eax &&& 0x1F ≠ 0) →
      captureSweep q 0x8000001D extBrk fuel 0 =
        (List.range n).map (fun s => mkEntry 0x8000001D s (q 0x8000001D s))) ∧
    (∀ q : Query, ∀ n fuel maxFunc : Nat, 4 ≤ maxFunc → n < fuel →
      (GetCPUCacheDetails q 4 n).«Type» = getCacheTypeString 0 →
      (∀ j, j < n → (GetCPUCacheDetails q 4 j).«Type» ≠ getCacheTypeString 0) →
      GetIntelCache fuel maxFunc q =
        (List.range n).map (fun s => GetCPUCacheDetails q 4 s)) ∧
    (∀ q : Query, ∀ n fuel maxExtFunc : Nat, 0x8000001D ≤ maxExtFunc → n < fuel →
      (GetCPUCacheDetails q 0x8000001D n).«Type» = getCacheTypeString 0 →
      (∀ j, j < n → (GetCPUCacheDetails q 0x8000001D j).«Type» ≠ getCacheTypeString 0) →
      GetAMDCache fuel maxExtFunc q =
        (List.range n).map (fun s => GetCPUCacheDetails q 0x8000001D s)) ∧
    (∀ t : Nat, getCacheTypeString t = "Unknown" ↔ (t ≠ 1 ∧ t ≠ 2 ∧ t ≠ 3)) := by
  refine ⟨?_, ?_, ?_, ?_, ?_⟩
  · intro q n fuel hn hfuel hstop hcont
    have := captureSweep_stops q 4 (stdBrk 4) n fuel 0 hfuel
      (by rw [stdBrk_four]; simp only [Nat.zero_add]; exact decide_eq_true ⟨hn, hstop⟩)
      (fun j hj => by
        rw [stdBrk_four]
        simp only [Nat.zero_add]
        rcases Nat.eq_zero_or_pos j with h0 | hpos
        · subst h0; simp
        · exact decide_eq_false (fun hc => hcont j hpos hj hc.2))
    simpa using this
  · intro q n fuel hn hfuel hstop hcont
    have := captureSweep_stops q 0x8000001D extBrk n fuel 0 hfuel
      (by simp only [extBrk, Nat.zero_add]; exact decide_eq_true ⟨hn, hstop⟩)
      (fun j hj => by
        simp only [extBrk, Nat.zero_add]
        rcases Nat.eq_zero_or_pos j with h0 | hpos
        · subst h0; simp
        · exact decide_eq_false (fun hc => hcont j hpos hj hc.2))
    simpa using this
  · intro q n fuel maxFunc hmax hfuel hstop hcont
    have hnot : ¬ maxFunc < 4 := by omega
    rw [GetIntelCache, if_neg hnot]
    have := cacheSweep_stops q 4 n fuel 0 hfuel (by simpa using hstop)
      (fun j hj => by simpa using hcont j hj)
    simpa using this
  · intro q n fuel maxExtFunc hmax hfuel hstop hcont
    have hnot : ¬ maxExtFunc < 0x8000001D := by omega
    rw [GetAMDCache, if_neg hnot]
    have := cacheSweep_stops q 0x8000001D n fuel 0 hfuel (by simpa using hstop)
      (fun j hj => by simpa using hcont j hj)
    simpa using this
  · intro t
    constructor
    · intro h
      refine ⟨?_, ?_, ?_⟩ <;> rintro rfl <;> simp [getCacheTypeString] at h
    · intro ⟨h1, h2, h3⟩
      match t, h1, h2, h3 with
      | 0, _, _, _ => rfl
      | (n + 4), _, _, _ =>
        show getCacheTypeString (n + 4) = "Unknown"
        rfl

theorem cacheEnumeration_termination_witness :
    captureSweep zeroQuery 4 (stdBrk 4) 2 0 = [mkEntry 4 0 (zeroQuery 4 0)] ∧
    captureSweep zeroQuery 0x8000001D extBrk 2 0 = [mkEntry 0x8000001D 0 (zeroQuery 0x8000001D 0)] ∧
    GetIntelCache 1 4 zeroQuery = [] ∧
    GetAMDCache 1 0x8000001D zeroQuery = [] := by
  refine ⟨?_, ?_, ?_, ?_⟩
  · have := cacheEnumeration_termination.1 zeroQuery 1 2 (by decide) (by decide)
      (by decide) (fun j hj hj1 => by omega)
    simpa using this
  · have := cacheEnumeration_termination.2.1 zeroQuery 1 2 (by decide) (by decide)
      (by decide) (fun j hj hj1 => by omega)
    simpa using this
  · have := cacheEnumeration_termination.2.2.1 zeroQuery 0 1 4 (by decide) (by decide)
      (by decide) (fun j hj => by omega)
    simpa using this
  · have := cacheEnumeration_termination.2.2.2.1 zeroQuery 0 1 0x8000001D (by decide)
      (by decide) (by decide) (fun j hj => by omega)
    simpa using this

/-- The entries recorded by `CaptureData`'s standard-leaf walk: leaves 0 up to
the leaf-0 EAX maximum, with subleaf iteration (and its break conditions) for
leaves 4, 0xB and 0xD, and a single subleaf-0 entry otherwise. -/
def captureStandard (q : Query) (fuel : Nat) : List Entry :=
  let maxStandard := (q 0 0).eax
  (List.range (maxStandard + 1)).flatMap fun leaf =>
    if leaf = 4 ∨ leaf = 0xB ∨ leaf = 0xD then
      captureSweep q leaf (stdBrk leaf) fuel 0
    else
      [mkEntry leaf 0 (q leaf 0)]

/-- The entries recorded by `CaptureData`'s extended-leaf walk: leaves
0x80000000 up to the leaf-0x80000000 EAX maximum, with subleaf iteration for
leaf 0x8000001D and a single subleaf-0 entry otherwise. -/
def captureExtended (q : Query) (fuel : Nat) : List Entry :=
  let maxExtended := (q 0x80000000 0).eax
  ((List.range (maxExtended + 1 - 0x80000000)).map (fun i => 0x80000000 + i)).flatMap
    fun leaf =>
      if leaf = 0x8000001D then captureSweep q leaf extBrk fuel 0
      else [mkEntry leaf 0 (q leaf 0)]

/-- The `Data` Go struct (the in-memory snapshot). -/
structure Data where
  Entries : List Entry
deriving DecidableEq, Repr

/-- The persisted snapshot document. -/
structure SnapshotFile where
  entries : List Entry
deriving DecidableEq, Repr

/-- Modelled from the spec: the JSON encoding performed by `CaptureData`
(Go `encoding/json`, which is standard-library machinery external to this
repository) persists the ordered entry list with stable field names
(`leaf`, `subleaf`, `eax`, `ebx`, `ecx`, `edx`), preserving every field. -/
def encodeSnapshot (d : Data) : SnapshotFile := ⟨d.Entries⟩

/-- Modelled from the spec: the JSON decoding performed by `DataFromFile`
reparses the persisted document into the same ordered entry list. -/
def decodeSnapshot (f : SnapshotFile) : Data := ⟨f.entries⟩

/-- Embedding of `CaptureData`: walk the standard then the extended leaf
space and write the collected entries to the snapshot file. -/
def CaptureData (q : Query) (fuel : Nat) : SnapshotFile :=
  encodeSnapshot ⟨captureStandard q fuel ++ captureExtended q fuel⟩

/-- Embedding of `DataFromFile`: read the snapshot file back into a `Data`. -/
def DataFromFile (f : SnapshotFile) : Data := decodeSnapshot f

theorem captureSweep_mem (q : Query) (leaf : Nat) (brk : Nat → RegTuple → Bool) :
    ∀ fuel start e, e ∈ captureSweep q leaf brk fuel start →
      ∃ s, e = mkEntry leaf s (q leaf s) := by
  intro fuel
  induction fuel with
  | zero => intro start e h; simp [captureSweep] at h
  | succ f ih =>
    intro start e h
    simp only [captureSweep] at h
    by_cases hb : brk start (q leaf start) = true
    · rw [if_pos hb] at h; simp at h
    · rw [if_neg hb] at h
      rcases List.mem_cons.mp h with h0 | h1
      · exact ⟨start, h0⟩
      · exact ih (start + 1) e h1

/-- C7: loading the file written by `CaptureData` with `DataFromFile` is the
identity on the entry list, and every entry of the loaded data carries exactly
the four register values the source returned at its (leaf, subleaf). -/
theorem captureData_roundTrip (q : Query) (fuel : Nat) :
    DataFromFile (CaptureData q fuel) = ⟨captureStandard q fuel ++ captureExtended q fuel⟩ ∧
    ∀ e ∈ (DataFromFile (CaptureData q fuel)).Entries,
      RegTuple.mk e.EAX e.EBX e.ECX e.EDX = q e.Leaf e.Subleaf := by
  refine ⟨rfl, ?_⟩
  intro e he
  have hmem : e ∈ captureStandard q fuel ++ captureExtended q fuel := he
  have hform : ∃ l s, e = mkEntry l s (q l s) := by
    rcases List.mem_append.mp hmem with h | h
    · rcases List.mem_flatMap.mp h with ⟨leaf, _, hbranch⟩
      by_cases hl : leaf = 4 ∨ leaf = 0xB ∨ leaf = 0xD
      · rw [if_pos hl] at hbranch
        rcases captureSweep_mem q leaf (stdBrk leaf) fuel 0 e hbranch with ⟨s, hs⟩
        exact ⟨leaf, s, hs⟩
      · rw [if_neg hl] at hbranch
        simp only [List.mem_singleton] at hbranch
        exact ⟨leaf, 0, hbranch⟩
    · rcases List.mem_flatMap.mp h with ⟨leaf, _, hbranch⟩
      by_cases hl : leaf = 0x8000001D
      · rw [if_pos hl] at hbranch
        rcases captureSweep_mem q leaf extBrk fuel 0 e hbranch with ⟨s, hs⟩
        exact ⟨leaf, s, hs⟩
      · rw [if_neg hl] at hbranch
        simp only [List.mem_singleton] at hbranch
        exact ⟨leaf, 0, hbranch⟩
  rcases hform with ⟨l, s, rfl⟩
  rfl

theorem captureData_roundTrip_witness :
    DataFromFile (CaptureData zeroQuery 1) = ⟨[mkEntry 0 0 ⟨0, 0, 0, 0⟩]⟩ ∧
    RegTuple.mk 0 0 0 0 = zeroQuery 0 0 :=
  ⟨((captureData_roundTrip zeroQuery 1).1).trans (by decide),
   (captureData_roundTrip zeroQuery 1).2 (mkEntry 0 0 ⟨0, 0, 0, 0⟩) (by decide)⟩

/-- The `TLBEntry` Go struct. -/
structure TLBEntry where
  PageSize : String
  Entries : Nat
  Associativity : String
deriving DecidableEq, Repr

/-- The `TLBLevel` Go struct. -/
structure TLBLevel where
  Data : List TLBEntry
  Instruction : List TLBEntry
  Unified : List TLBEntry
deriving DecidableEq, Repr

/-- The `TLBInfo` Go struct. -/
structure TLBInfo where
  Vendor : String
  L1 : TLBLevel
  L2 : TLBLevel
  L3 : TLBLevel
deriving DecidableEq, Repr

/-- The zero `TLBLevel`. -/
def emptyTLBLevel : TLBLevel := ⟨[], [], []⟩

/-- The Go zero value `TLBInfo{}`. -/
def emptyTLBInfo : TLBInfo := ⟨"", emptyTLBLevel, emptyTLBLevel, emptyTLBLevel⟩

/-- Embedding of `getAMDAssociativity`. -/
def getAMDAssociativity (value : Nat) : String :=
  match value with
  | 0 => "Reserved"
  | 1 => "1-way (direct mapped)"
  | 2 => "2-way"
  | 4 => "4-way"
  | 6 => "6-way"
  | 8 => "8-way"
  | 0xF => "Fully associative"
  | _ => toString value ++ "-way"

/-- Embedding of `getIntelAssociativity`. -/
def getIntelAssociativity (value : Nat) : String :=
  match value with
  | 0 => "Reserved"
  | 1 => "Direct mapped"
  | 2 => "2-way"
  | 3 => "3-way"
  | 4 => "4-way"
  | 5 => "6-way"
  | 6 => "8-way"
  | 7 => "12-way"
  | 8 => "16-way"
  | 9 => "32-way"
  | 10 => "48-way"
  | 11 => "64-way"
  | 12 => "96-way"
  | 13 => "128-way"
  | 14 => "Fully associative"
  | 15 => "Reserved"
  | _ => "Unknown (" ++ toString value ++ ")"

/-- Embedding of `getTLBPageSize`. -/
def getTLBPageSize (value : Nat) : String :=
  match value &&& 0xF with
  | 1 => "4KB"
  | 2 => "2MB"
  | 3 => "4MB"
  | 4 => "1GB"
  | 5 => "256MB"
  | 0xF => "Reserved"
  | _ => "Unknown"

/-- Embedding of `getTLBType`. -/
def getTLBType (value : Nat) : String :=
  match value with
  | 0 => "Invalid"
  | 1 => "Data"
  | 2 => "Instruction"
  | 3 => "Unified"
  | _ => "Unknown"

/-- Embedding of `addIntelTLBEntry` (functional update instead of the Go
pointer mutation). -/
def addIntelTLBEntry (level : TLBLevel) (tlbType : String) (entry : TLBEntry) : TLBLevel :=
  if tlbType = "Data" then { level with Data := level.Data ++ [entry] }
  else if tlbType = "Instruction" then { level with Instruction := level.Instruction ++ [entry] }
  else if tlbType = "Unified" then { level with Unified := level.Unified ++ [entry] }
  else level

/-- Embedding of `parseIntelDescriptor`. -/
def parseIntelDescriptor (descriptor : Nat) : Option TLBEntry :=
  match descriptor with
  | 0x01 => some ⟨"4KB", 32, "4-way"⟩
  | 0x02 => some ⟨"4MB", 2, "4-way"⟩
  | 0x03 => some ⟨"4KB", 64, "4-way"⟩
  | 0x04 => some ⟨"4MB", 8, "4-way"⟩
  | _ => none

/-- Embedding of `processIntelDescriptors`: for each nonzero register value,
parse its four descriptor bytes and append recognized 4KB/4MB entries to
L1 Data. -/
def processIntelDescriptors (info : TLBInfo) (vals : List Nat) : TLBInfo :=
  vals.foldl
    (fun info val =>
      if val = 0 then info
      else
        (List.range 4).foldl
          (fun info i =>
            let descriptor := (val >>> (i * 8)) &&& 0xFF
            match parseIntelDescriptor descriptor with
            | some entry =>
              if strContains entry.PageSize "4KB" || strContains entry.PageSize "4MB" then
                { info with L1 := { info.L1 with Data := info.L1.Data ++ [entry] } }
              else info
            | none => info)
          info)
    info

/-- Embedding of `GetAMDTLBInfo`: L1 from leaf 0x80000005, L2 from leaf
0x80000006 when available, L3 (1GB data) from leaf 0x80000019 when
available. -/
def GetAMDTLBInfo (maxExtFunc : Nat) (q : Query) : TLBInfo :=
  let r5 := q 0x80000005 0
  let a := r5.eax
  let b := r5.ebx
  let l1Data : List TLBEntry :=
    [⟨"2MB/4MB", (a >>> 16) &&& 0xFF, getAMDAssociativity ((a >>> 8) &&& 0xFF)⟩,
     ⟨"4KB", (a >>> 24) &&& 0xFF, getAMDAssociativity ((a >>> 8) &&& 0xFF)⟩]
  let l1Instr : List TLBEntry :=
    [⟨"2MB/4MB", (b >>> 16) &&& 0xFF, getAMDAssociativity ((b >>> 8) &&& 0xFF)⟩,
     ⟨"4KB", (b >>> 24) &&& 0xFF, getAMDAssociativity ((b >>> 8) &&& 0xFF)⟩]
  let info : TLBInfo := { emptyTLBInfo with Vendor := "AMD", L1 := ⟨l1Data, l1Instr, []⟩ }
  if 0x80000006 ≤ maxExtFunc then
    let r6 := q 0x80000006 0
    let a6 := r6.eax
    let b6 := r6.ebx
    let l2Data : List TLBEntry :=
      [⟨"2MB/4MB", (a6 >>> 16) &&& 0xFFF, getAMDAssociativity ((a6 >>> 12) &&& 0xF)⟩,
       ⟨"4KB", (a6 >>> 28) &&& 0xF, getAMDAssociativity ((a6 >>> 12) &&& 0xF)⟩]
    let l2Instr : List TLBEntry :=
      [⟨"2MB/4MB", (b6 >>> 16) &&& 0xFFF, getAMDAssociativity ((b6 >>> 12) &&& 0xF)⟩,
       ⟨"4KB", (b6 >>> 28) &&& 0xF, getAMDAssociativity ((b6 >>> 12) &&& 0xF)⟩]
    let info := { info with L2 := ⟨l2Data, l2Instr, []⟩ }
    if 0x80000019 ≤ maxExtFunc then
      let r9 := q 0x80000019 0
      let a9 := r9.eax
      { info with
        L3 := ⟨[⟨"1GB", (a9 >>> 16) &&& 0xFFF, getAMDAssociativity ((a9 >>> 12) &&& 0xF)⟩],
               [], []⟩ }
    else info
  else info

/-- The leaf-0x18 structured-TLB subleaf loop of `GetIntelTLBInfo`; stops at
the first subleaf whose EDX low-5-bits value is not 1.  `fuel` bounds the
iteration, which the Go loop leaves unbounded. -/
def intel18Sweep (q : Query) : Nat → Nat → TLBInfo → TLBInfo
  | 0, _, info => info
  | fuel + 1, subleaf, info =>
    let r := q 0x18 subleaf
    if (r.edx &&& 0x1F) ≠ 1 then info
    else
      let entry : TLBEntry :=
        ⟨getTLBPageSize r.ebx, ((r.ebx >>> 16) &&& 0xFFF) + 1,
         getIntelAssociativity (r.ebx >>> 8)⟩
      let level := (r.ecx >>> 5) &&& 0x7
      let tlbType := getTLBType ((r.ecx >>> 8) &&& 0x3)
      let info' :=
        match level with
        | 1 => { info with L1 := addIntelTLBEntry info.L1 tlbType entry }
        | 2 => { info with L2 := addIntelTLBEntry info.L2 tlbType entry }
        | 3 => { info with L3 := addIntelTLBEntry info.L3 tlbType entry }
        | _ => info
      intel18Sweep q fuel (subleaf + 1) info'

/-- Embedding of `GetIntelTLBInfo`: leaf-2 descriptor bytes, then the
structured leaf-0x18 subleaf loop when `maxFunc ≥ 0x18`. -/
def GetIntelTLBInfo (maxFunc : Nat) (q : Query) (fuel : Nat) : TLBInfo :=
  let info : TLBInfo := { emptyTLBInfo with Vendor := "Intel" }
  if maxFunc < 0x2 then info
  else
    let r := q 0x2 0
    let info := processIntelDescriptors info [r.eax >>> 8, r.ebx, r.ecx, r.edx]
    if 0x18 ≤ maxFunc then intel18Sweep q fuel 0 info else info

/-- Embedding of `GetTLBInfo` (cpuid_tlb.go): dispatch on the vendor read from
the register source, AMD first; the pair's second component models the Go
error (`none` = nil). -/
def GetTLBInfo (maxFunc maxExtFunc : Nat) (q : Query) (fuel : Nat) :
    TLBInfo × Option String :=
  if isAMD q then (GetAMDTLBInfo maxExtFunc q, none)
  else if isIntel q then (GetIntelTLBInfo maxFunc q fuel, none)
  else (emptyTLBInfo, some "Unknown/Unsupported CPU vendor")

/-- Packs four byte values into one 32-bit register value, little-endian. -/
def packBytes (b0 b1 b2 b3 : Nat) : Nat :=
  b0 + b1 * 2 ^ 8 + b2 * 2 ^ 16 + b3 * 2 ^ 24

/-- A register source whose leaf-0 vendor string is "AMDINTELXXXX" (contains
both "AMD" and "INTEL") and whose leaf-4 subleaf 0 is a Data cache. -/
def bothVendorQuery : Query := fun l s =>
  if l = 0 then ⟨0, packBytes 65 77 68 73, packBytes 88 88 88 88, packBytes 78 84 69 76⟩
  else if l = 4 ∧ s = 0 then ⟨0x21, 0, 0, 0⟩
  else ⟨0, 0, 0, 0⟩

/-- C3 is false when the vendor string contains both "AMD" and "INTEL": the
AMD check runs first, so although the vendor contains "INTEL" the getters
take the AMD decode path, not the Intel one (`GetCacheInfo` returns the AMD
result, which here differs from the nonempty Intel result; `GetTLBInfo`
returns the AMD-vendor structure, not the Intel one). -/
theorem vendorRouting_counterexample :
    vendorHasINTEL (GetVendorID bothVendorQuery) = true ∧
    GetCacheInfo 2 4 0 (GetVendorID bothVendorQuery) bothVendorQuery = ([], none) ∧
    GetIntelCache 2 4 bothVendorQuery = [GetCPUCacheDetails bothVendorQuery 4 0] ∧
    GetCacheInfo 2 4 0 (GetVendorID bothVendorQuery) bothVendorQuery ≠
      (GetIntelCache 2 4 bothVendorQuery, none) ∧
    (GetTLBInfo 0 0 bothVendorQuery 1).1.Vendor = "AMD" ∧
    (GetIntelTLBInfo 0 bothVendorQuery 1).Vendor = "Intel" ∧
    GetTLBInfo 0 0 bothVendorQuery 1 ≠ (GetIntelTLBInfo 0 bothVendorQuery 1, none) := by
  refine ⟨?_, ?_, ?_, ?_, ?_, ?_, ?_⟩ <;> decide

/-- C3 (amended): `GetCacheInfo` and `GetTLBInfo` check the AMD condition
first: a vendor string containing "AMD" (case-insensitive) routes to the AMD
decode path with a nil error; one containing "INTEL" but not "AMD" routes to
the Intel decode path with a nil error; one containing neither yields the
"Unknown/Unsupported CPU vendor" error with the empty result, for every
mode, maximum-function input and register source. -/
theorem vendorRouting (fuel maxFunc maxExtFunc : Nat) (v : List Nat) (q : Query) :
    (vendorHasAMD v = true →
      GetCacheInfo fuel maxFunc maxExtFunc v q = (GetAMDCache fuel maxExtFunc q, none)) ∧
    (vendorHasAMD v = false → vendorHasINTEL v = true →
      GetCacheInfo fuel maxFunc maxExtFunc v q = (GetIntelCache fuel maxFunc q, none)) ∧
    (vendorHasAMD v = false → vendorHasINTEL v = false →
      GetCacheInfo fuel maxFunc maxExtFunc v q =
        ([], some "Unknown/Unsupported CPU vendor")) ∧
    (isAMD q = true →
      GetTLBInfo maxFunc maxExtFunc q fuel = (GetAMDTLBInfo maxExtFunc q, none)) ∧
    (isAMD q = false → isIntel q = true →
      GetTLBInfo maxFunc maxExtFunc q fuel = (GetIntelTLBInfo maxFunc q fuel, none)) ∧
    (isAMD q = false → isIntel q = false →
      GetTLBInfo maxFunc maxExtFunc q fuel =
        (emptyTLBInfo, some "Unknown/Unsupported CPU vendor")) := by
  refine ⟨?_, ?_, ?_, ?_, ?_, ?_⟩
  · intro hA; simp [GetCacheInfo, hA]
  · intro hA hI; simp [GetCacheInfo, hA, hI]
  · intro hA hI; simp [GetCacheInfo, hA, hI]
  · intro hA; simp [GetTLBInfo, hA]
  · intro hA hI; simp [GetTLBInfo, hA, hI]
  · intro hA hI; simp [GetTLBInfo, hA, hI]

/-- A register source whose leaf-0 vendor string is "AuthenticAMD". -/
def amdVendorQuery : Query := fun l _ =>
  if l = 0 then ⟨0, packBytes 65 117 116 104, packBytes 99 65 77 68, packBytes 101 110 116 105⟩
  else ⟨0, 0, 0, 0⟩

/-- A register source whose leaf-0 vendor string is "GenuineIntel". -/
def intelVendorQuery : Query := fun l _ =>
  if l = 0 then ⟨0, packBytes 71 101 110 117, packBytes 110 116 101 108, packBytes 105 110 101 73⟩
  else ⟨0, 0, 0, 0⟩

theorem vendorRouting_witness :
    GetCacheInfo 1 0 0 (GetVendorID amdVendorQuery) amdVendorQuery =
      (GetAMDCache 1 0 amdVendorQuery, none) ∧
    GetCacheInfo 1 0 0 (GetVendorID intelVendorQuery) intelVendorQuery =
      (GetIntelCache 1 0 intelVendorQuery, none) ∧
    GetCacheInfo 1 0 0 (GetVendorID zeroQuery) zeroQuery =
      ([], some "Unknown/Unsupported CPU vendor") ∧
    GetTLBInfo 0 0 amdVendorQuery 1 = (GetAMDTLBInfo 0 amdVendorQuery, none) ∧
    GetTLBInfo 0 0 intelVendorQuery 1 = (GetIntelTLBInfo 0 intelVendorQuery 1, none) ∧
    GetTLBInfo 0 0 zeroQuery 1 = (emptyTLBInfo, some "Unknown/Unsupported CPU vendor") :=
  ⟨(vendorRouting 1 0 0 (GetVendorID amdVendorQuery) amdVendorQuery).1 (by decide),
   (vendorRouting 1 0 0 (GetVendorID intelVendorQuery) intelVendorQuery).2.1
     (by decide) (by decide),
   (vendorRouting 1 0 0 (GetVendorID zeroQuery) zeroQuery).2.2.1 (by decide) (by decide),
   (vendorRouting 1 0 0 (GetVendorID amdVendorQuery) amdVendorQuery).2.2.2.1 (by decide),
   (vendorRouting 1 0 0 (GetVendorID intelVendorQuery) intelVendorQuery).2.2.2.2.1
     (by decide) (by decide),
   (vendorRouting 1 0 0 (GetVendorID zeroQuery) zeroQuery).2.2.2.2.2 (by decide) (by decide)⟩

/-- The `Feature` Go struct. -/
structure Feature where
  name : String
  description : String
  function : String
  vendor : String
  equivalentFeatureName : String
  equivalent : Int
deriving DecidableEq, Repr

/-- The `FeatureSet` Go struct.  The optional `condition` is an arbitrary
predicate (called with argument 0, as the Go code does); `features` is the
bit-position-to-feature map in iteration order. -/
structure FeatureSet where
  name : String
  leaf : Nat
  subleaf : Nat
  register : Nat
  condition : Option (Nat → Bool)
  group : String
  features : List (Nat × Feature)

/-- The feature catalog `cpuFeaturesList` (a Go map from category name to
`FeatureSet`), modelled as an association list in iteration order.  The map's
contents live in a source file (`vars.go`) that is not part of this tree, so
the catalog is kept abstract and the algorithms are verified over every
catalog and every iteration order. -/
abbrev Catalog := List (String × FeatureSet)

/-- Embedding of `GetAllFeatureCategories`: collect the category keys and sort
them (`sort.Strings`, modelled by insertion sort with respect to the
lexicographic order on strings — antisymmetry makes the sorted permutation
unique, so any correct sort yields this list). -/
def GetAllFeatureCategories (catalog : Catalog) : List String :=
  List.insertionSort (· ≤ ·) (catalog.map Prod.fst)

/-- C6: `GetAllFeatureCategories` returns the catalog's category names in
lexicographically sorted order, and its output does not depend on the map
iteration order: two calls that see the catalog in any two orders (any
permutation) return the identical list. -/
theorem getAllFeatureCategories_sorted (catalog catalog' : Catalog)
    (hperm : catalog.Perm catalog') :
    (GetAllFeatureCategories catalog).Sorted (· ≤ ·) ∧
    (GetAllFeatureCategories catalog).Perm (catalog.map Prod.fst) ∧
    GetAllFeatureCategories catalog = GetAllFeatureCategories catalog' := by
  refine ⟨List.sorted_insertionSort _ _, List.perm_insertionSort _ _, ?_⟩
  refine List.eq_of_perm_of_sorted ?_ (List.sorted_insertionSort _ _)
    (List.sorted_insertionSort _ _)
  exact ((List.perm_insertionSort _ _).trans (hperm.map Prod.fst)).trans
    (List.perm_insertionSort _ _).symm

/-- A feature set with no features, used to instantiate the catalog theorems. -/
def fsA : FeatureSet := ⟨"Feature Set A", 1, 0, 2, none, "Basic CPU", []⟩

/-- A second feature set with no features. -/
def fsB : FeatureSet := ⟨"Feature Set B", 7, 0, 1, none, "Extended", []⟩

/-- A two-category catalog in one iteration order. -/
def catalogBA : Catalog := [("B", fsB), ("A", fsA)]

/-- The same catalog in the other iteration order. -/
def catalogAB : Catalog := [("A", fsA), ("B", fsB)]

theorem getAllFeatureCategories_sorted_witness :
    (GetAllFeatureCategories catalogBA).Sorted (· ≤ ·) ∧
    (GetAllFeatureCategories catalogBA).Perm (catalogBA.map Prod.fst) ∧
    GetAllFeatureCategories catalogBA = GetAllFeatureCategories catalogAB :=
  getAllFeatureCategories_sorted catalogBA catalogAB
    (List.Perm.swap ("A", fsA) ("B", fsB) [])

/-- The register selector switch of `IsFeatureSupported` (0=EAX, 1=EBX,
2=ECX, 3=EDX; the Go `regValue` stays 0 on any other selector). -/
def selectRegister (register : Nat) (r : RegTuple) : Nat :=
  match register with
  | 0 => r.eax
  | 1 => r.ebx
  | 2 => r.ecx
  | 3 => r.edx
  | _ => 0

/-- `fs.condition != nil && !fs.condition(0)`. -/
def conditionFails (fs : FeatureSet) : Bool :=
  match fs.condition with
  | some c => ! c 0
  | none => false

/-- The inner scan of `IsFeatureSupported`: the bit position of the first
feature in the set carrying the given name, if any. -/
def findFeatureBit (features : List (Nat × Feature)) (featureName : String) : Option Nat :=
  match features.find? (fun p => p.2.name = featureName) with
  | some p => some p.1
  | none => none

/-- Embedding of `IsFeatureSupported`: linear scan of the catalog; a
`FeatureSet` whose condition fails is skipped; the first set containing the
feature name decides the answer by probing the feature's bit in the selected
register (returning false immediately when the bit is clear); false when no
set contains the name. -/
def IsFeatureSupported (catalog : Catalog) (featureName : String) (q : Query) : Bool :=
  match catalog with
  | [] => false
  | (_, fs) :: rest =>
    if conditionFails fs then IsFeatureSupported rest featureName q
    else
      match findFeatureBit fs.features featureName with
      | none => IsFeatureSupported rest featureName q
      | some bit => (selectRegister fs.register (q fs.leaf fs.subleaf) >>> bit) &&& 1 = 1

/-- The claim's description of the scan: among the feature sets whose
applicability condition holds, the first one containing the feature name. -/
def specFirstHit (catalog : Catalog) (featureName : String) : Option FeatureSet :=
  ((catalog.filter fun p => ! conditionFails p.2).find?
    fun p => (findFeatureBit p.2.features featureName).isSome).map Prod.snd

/-- The claim's description of `IsFeatureSupported`: true iff the feature's
bit is set in the selected register of the first applicable feature set
containing the name; false when there is none. -/
def specIsFeatureSupported (catalog : Catalog) (featureName : String) (q : Query) : Bool :=
  match specFirstHit catalog featureName with
  | none => false
  | some fs =>
    match findFeatureBit fs.features featureName with
    | some bit => (selectRegister fs.register (q fs.leaf fs.subleaf)).testBit bit
    | none => false

theorem bitProbe_eq_testBit (x b : Nat) :
    decide ((x >>> b) &&& 1 = 1) = x.testBit b := by
  have h1 : (x >>> b) &&& 1 = x / 2 ^ b % 2 := by
    have h := mask_extract x b 1
    simpa using h
  rw [Nat.testBit_to_div_mod, decide_eq_decide, h1]

/-- C8: `IsFeatureSupported` is exactly the claim's first-match-wins scan:
it skips feature sets whose applicability condition fails, answers from the
first remaining set containing the name — true iff that feature's bit is 1 in
the set's selected register, with no later category consulted — and returns
false when no set contains the name. -/
theorem isFeatureSupported_spec (catalog : Catalog) (featureName : String) (q : Query) :
    IsFeatureSupported catalog featureName q =
      specIsFeatureSupported catalog featureName q := by
  induction catalog with
  | nil => rfl
  | cons p rest ih =>
    obtain ⟨k, fs⟩ := p
    by_cases hc : conditionFails fs = true
    · simp only [IsFeatureSupported, hc, if_true, ih, specIsFeatureSupported, specFirstHit,
        List.filter_cons, Bool.not_eq_true', hc, Bool.not_true]
      rfl
    · have hc' : conditionFails fs = false := by
        cases h : conditionFails fs
        · rfl
        · exact absurd h hc
      cases hfind : findFeatureBit fs.features featureName with
      | none =>
        simp only [IsFeatureSupported, hc', Bool.false_eq_true, if_false, hfind, ih,
          specIsFeatureSupported, specFirstHit, List.filter_cons, hc', Bool.not_false,
          if_true, List.find?_cons, hfind, Option.isSome_none]
      | some bit =>
        simp only [IsFeatureSupported, hc', Bool.false_eq_true, if_false, hfind,
          specIsFeatureSupported, specFirstHit, List.filter_cons, hc', Bool.not_false,
          if_true, List.find?_cons, hfind, Option.isSome_some, Option.map_some]
        rw [bitProbe_eq_testBit]
        simp [hfind]

end Cpuid
